import Mathlib

/-!
Verification of the seat-reservation core of the Vubox movie-ticket server.

The embedding models the two source files that implement the reservation
lifecycle:

* `src/server/controllers/bookingController.js` - `checkSeatsAvailability`,
  `createBooking`, `getOccupiedSeats`;
* `src/server/inngest/index.js` - the deferred expiry task
  `releaseSeatsAndDeleteBooking` and the reminder cron `sendShowReminders`.

MongoDB documents become Lean structures; the `occupiedSeats` object of a
show becomes an association list from seat label to the stored value
(the booking user id, as written by `createBooking` line 66).  Each
JavaScript database round trip becomes a pure function on a `DBState`
value, and the server process becomes a step relation on `DBState`.
-/

namespace Vubox

/-- A Booking document (`src/server/models/Booking.js` is not part of the
provided sources; field names and the initial `isPaid = false` follow the
controller code and the design document, which states the confirmation
flag is initially false).  The source field `show` is rendered here as
`showId` because `show` is reserved in Lean. -/
structure Booking where
  id : String
  user : String
  showId : String
  amount : Nat
  bookedSeats : List String
  isPaid : Bool
  paymentLink : String
deriving Repr, DecidableEq

/-- A Show document as used by the booking controller and the inngest
functions: price, the `occupiedSeats` object (seat label to stored user
id), the start time in epoch milliseconds (`showTime`, the field queried
by `sendShowReminders`), and the populated movie title (`none` models a
missing `movie` reference, the `!show.movie` guard). -/
structure ShowDoc where
  id : String
  showPrice : Nat
  occupiedSeats : List (String × String)
  showTime : Nat
  movie : Option String
deriving Repr, DecidableEq

/-- A User document as selected by `sendShowReminders` (`name email`). -/
structure UserDoc where
  id : String
  name : String
  email : String
deriving Repr, DecidableEq

/-- The backing store shared by all request handlers and background tasks,
plus the list of booking ids for which an `app/checkpayment` expiry event
was successfully handed to inngest. -/
structure DBState where
  shows : List ShowDoc
  bookings : List Booking
  users : List UserDoc
  scheduledExpiries : List String
deriving Repr, DecidableEq

/-- The JSON value sent by `res.json` in `createBooking`: either
`{success: true, url}` or `{success: false, message}`. -/
inductive Response where
  | success (url : String)
  | failure (message : String)
deriving Repr, DecidableEq

/-! ### The seat map (the `occupiedSeats` object of a show) -/

/-- Reading `occupiedSeats[seat]`: the value stored at a key, `none` when
the key is absent. -/
def lookupSeat : List (String × String) → String → Option String
  | [], _ => none
  | p :: rest, key => if p.1 == key then some p.2 else lookupSeat rest key

/-- JavaScript truthiness of `occupiedSeats[seat]` as used by the filter
on line 26 of the controller: a present key with a non-empty string value. -/
def seatTaken (occ : List (String × String)) (seat : String) : Bool :=
  match lookupSeat occ seat with
  | some v => v != ""
  | none => false

/-- The assignment `occupiedSeats[seat] = userId` (controller line 66):
replace the value when the key is present, otherwise append the key. -/
def setSeat : List (String × String) → String → String → List (String × String)
  | [], k, v => [(k, v)]
  | p :: rest, k, v => if p.1 == k then (k, v) :: rest else p :: setSeat rest k v

/-- The loop `selectedSeats.map(seat => occupiedSeats[seat] = userId)`
(controller lines 65 to 67). -/
def setSeats (occ : List (String × String)) (seats : List String) (userId : String) :
    List (String × String) :=
  seats.foldl (fun o k => setSeat o k userId) occ

/-- The statement `delete show.occupiedSeats[seat]` (inngest line 81):
remove the key when present. -/
def deleteSeat : List (String × String) → String → List (String × String)
  | [], _ => []
  | p :: rest, k => if p.1 == k then deleteSeat rest k else p :: deleteSeat rest k

/-- The loop `booking.bookedSeats.forEach(seat => delete show.occupiedSeats[seat])`
(inngest line 81). -/
def removeSeats (occ : List (String × String)) (seats : List String) :
    List (String × String) :=
  seats.foldl deleteSeat occ

/-! ### Database lookups and writes -/

/-- The call `Show.findById(showId)`. -/
def findShow (st : DBState) (showId : String) : Option ShowDoc :=
  st.shows.find? (fun s => s.id == showId)

/-- The call `Booking.findById(bookingId)`. -/
def findBooking (st : DBState) (bookingId : String) : Option Booking :=
  st.bookings.find? (fun b => b.id == bookingId)

/-- The effect of `show.markModified("occupiedSeats"); await show.save()`:
the document with the given id gets the new `occupiedSeats` value. -/
def updateShowOcc (st : DBState) (showId : String) (occ : List (String × String)) : DBState :=
  let shows' := st.shows.map (fun s => if s.id == showId then { s with occupiedSeats := occ } else s)
  { st with shows := shows' }

/-- The check `mongoose.Types.ObjectId.isValid(showId)` on a string input:
a 12-character string or a 24-character hexadecimal string. -/
def isValidObjectId (s : String) : Bool :=
  s.length == 12 || (s.length == 24 && s.toList.all (fun c => c.isDigit
    || ('a' ≤ c && c ≤ 'f') || ('A' ≤ c && c ≤ 'F')))

/-! ### checkSeatsAvailability (controller lines 8 to 36)

The source function either returns `true` or throws; thrown messages are
modelled as `Except.error`.  The `catch` block rethrows, so it does not
change the observable result. -/

def checkSeatsAvailability (st : DBState) (showId : String) (selectedSeats : List String) :
    Except String Bool :=
  if !(isValidObjectId showId) then Except.error "Invalid show ID format"
  else
    match findShow st showId with
    | none => Except.error "Show not found"
    | some showData =>
      if selectedSeats.isEmpty then Except.error "Invalid seats selection"
      else
        let takenSeats := selectedSeats.filter (fun seat => seatTaken showData.occupiedSeats seat)
        if takenSeats.isEmpty then Except.ok true
        else Except.error ("Seats " ++ String.intercalate ", " takenSeats ++ " are already taken")

/-! ### createBooking (controller lines 38 to 122)

The write phase (lines 54 to 116, everything after the availability
check) is split out so that the check-then-write structure of the source
is visible; `createBooking` composes the two exactly as the source does.
External collaborators are parameters: `stripeRes` is the outcome of
`stripeInstance.checkout.sessions.create` (the session URL, or the thrown
error message), and `inngestOk` tells whether the `inngest.send` race on
lines 102 to 115 completed within its 2000 ms deadline; its failure is
caught and only logged, so it has no effect on the response. -/

/-- Milliseconds before the `Promise.race` on controller lines 103 to 111
rejects the `inngest.send` call (line 109). -/
def inngestTimeoutMs : Nat := 2000

/-- The document passed to `Booking.create` on controller lines 58 to 63. -/
def newBooking (userId showId : String) (selectedSeats : List String) (bid : String)
    (showPrice : Nat) : Booking :=
  { id := bid, user := userId, showId := showId,
    amount := showPrice * selectedSeats.length,
    bookedSeats := selectedSeats, isPaid := false, paymentLink := "" }

/-- Controller lines 58 to 70: persist the new Booking, then write every
selected seat into the `occupiedSeats` object of the fetched show document
and save it. -/
def acquireState (st : DBState) (userId showId : String) (selectedSeats : List String)
    (bid : String) (showData : ShowDoc) : DBState :=
  updateShowOcc
    { st with bookings := st.bookings ++ [newBooking userId showId selectedSeats bid showData.showPrice] }
    showId (setSeats showData.occupiedSeats selectedSeats userId)

def createBookingAfterCheck (st : DBState) (userId showId : String)
    (selectedSeats : List String) (bid : String) (stripeRes : Except String String)
    (inngestOk : Bool) : DBState × Response :=
  match findShow st showId with
  | none => (st, Response.failure "Cannot read properties of null (reading 'showPrice')")
  | some showData =>
    let st2 : DBState := acquireState st userId showId selectedSeats bid showData
    match stripeRes with
    | Except.error msg => (st2, Response.failure msg)
    | Except.ok url =>
      let bookings3 := st2.bookings.map (fun b => if b.id == bid then { b with paymentLink := url } else b)
      let st3 : DBState := { st2 with bookings := bookings3 }
      let st4 : DBState :=
        if inngestOk then { st3 with scheduledExpiries := st3.scheduledExpiries ++ [bid] }
        else st3
      (st4, Response.success url)

def createBooking (st : DBState) (userId showId : String) (selectedSeats : List String)
    (bid : String) (stripeRes : Except String String) (inngestOk : Bool) :
    DBState × Response :=
  match checkSeatsAvailability st showId selectedSeats with
  | Except.error e => (st, Response.failure e)
  | Except.ok isAvailable =>
    if !isAvailable then (st, Response.failure "Selected Seats are not available.")
    else createBookingAfterCheck st userId showId selectedSeats bid stripeRes inngestOk

/-! ### The deferred expiry task (inngest lines 57 to 88)

The function below is the body of the `check-payment-status` step, run
when the `app/checkpayment` timer fires ten minutes after scheduling.  It
re-fetches the booking, does nothing when the booking is gone or already
paid, and otherwise releases the seats and deletes the booking. -/

def releaseSeatsAndDeleteBooking (st : DBState) (bookingId : String) : DBState :=
  match findBooking st bookingId with
  | none => st
  | some booking =>
    if booking.isPaid then st
    else
      match findShow st booking.showId with
      | none => st
      | some showDoc =>
        let st1 := updateShowOcc st booking.showId
          (removeSeats showDoc.occupiedSeats booking.bookedSeats)
        { st1 with bookings := st1.bookings.filter (fun b => !(b.id == bookingId)) }

/-- Modelled from the spec: the Confirmation Listener of design section 4.4
(in the repository this is the stripe payment webhook, which is not among
the provided sources).  It sets the confirmation flag `isPaid` of the
given reservation to true; a missing reservation is a benign no-op. -/
def markPaid (st : DBState) (bookingId : String) : DBState :=
  let bookings' := st.bookings.map (fun b => if b.id == bookingId then { b with isPaid := true } else b)
  { st with bookings := bookings' }

/-! ### The reminder cron (inngest lines 182 to 218, the
`prepare-reminder-tasks` step) -/

/-- A reminder notification intent, one element of the `tasks` array. -/
structure ReminderTask where
  userEmail : String
  userName : String
  movieTitle : String
  showTime : Nat
deriving Repr, DecidableEq

/-- The query bound `in8Hours = now + 8 * 60 * 60 * 1000` (inngest line 187). -/
def reminderWindowEnd (now : Nat) : Nat := now + 8 * 60 * 60 * 1000

/-- The query bound `windowStart = in8Hours - 10 * 60 * 1000` (inngest line 188). -/
def reminderWindowStart (now : Nat) : Nat := reminderWindowEnd now - 10 * 60 * 1000

/-- Membership in the mongo query
`Show.find({ showTime: { $gte: windowStart, $lte: in8Hours } })`. -/
def showInReminderWindow (now : Nat) (s : ShowDoc) : Bool :=
  decide (reminderWindowStart now ≤ s.showTime) && decide (s.showTime ≤ reminderWindowEnd now)

/-- The dedup `[...new Set(Object.values(show.occupiedSeats))]`: distinct
values in first-occurrence order. -/
def dedupAux : List String → List String → List String
  | _, [] => []
  | seen, a :: rest =>
    if a ∈ seen then dedupAux seen rest else a :: dedupAux (a :: seen) rest

def dedupKeepFirst (l : List String) : List String := dedupAux [] l

/-- The loop body for one show (inngest lines 198 to 215): skip shows with
no populated movie, collect the distinct user ids stored in
`occupiedSeats`, fetch those users, and push one task per fetched user. -/
def tasksForShow (st : DBState) (s : ShowDoc) : List ReminderTask :=
  match s.movie with
  | none => []
  | some title =>
    let userIds := dedupKeepFirst (s.occupiedSeats.map (fun p => p.2))
    if userIds.isEmpty then []
    else
      (st.users.filter (fun u => userIds.contains u.id)).map
        (fun u => { userEmail := u.email, userName := u.name,
                    movieTitle := title, showTime := s.showTime })

/-- The `prepare-reminder-tasks` step: tasks of every show whose
`showTime` lies in the query window. -/
def prepareReminderTasks (st : DBState) (now : Nat) : List ReminderTask :=
  (st.shows.filter (showInReminderWindow now)).flatMap (tasksForShow st)

/-! ### Serialized reachable states

The server starts from a store with no bookings and only free seats
(shows are created by the admin controller with an empty `occupiedSeats`
object) and evolves by the three operations that touch the reservation
state: a `createBooking` request, a firing of the deferred expiry task,
and the payment confirmation.  The booking id handed out by the store is
fresh, and an authenticated Clerk user id is a non-empty string.

IMPORTANT SCOPE: `Step` is the serialized semantics - each operation
runs to completion before the next begins, so `Step.create` applies the
availability check and the write phase as one transition.  The
controller itself provides no lock, transaction or write-time re-check,
so the real server also admits interleaved executions in which several
requests pass `checkSeatsAvailability` against the same pre-write store
before any write phase runs; those executions are modelled by composing
`checkSeatsAvailability` and `createBookingAfterCheck` directly (see the
stores `raceA` and `raceB`), they produce stores outside `Reachable`,
and they can violate the seat-uniqueness invariant proved below for the
serialized executions.  `Reachable` therefore under-approximates the
program: properties proved over it hold for non-interleaved runs only,
while counterexamples built from the split phases refute claims about
the program as a whole. -/

def InitState (st : DBState) : Prop :=
  st.bookings = [] ∧ st.scheduledExpiries = [] ∧
    (∀ s ∈ st.shows, s.occupiedSeats = []) ∧ (st.shows.map (fun s => s.id)).Nodup

inductive Step : DBState → DBState → Prop
  | create (st : DBState) (userId showId : String) (seats : List String) (bid : String)
      (stripeRes : Except String String) (inngestOk : Bool)
      (hu : userId ≠ "") (hfresh : ∀ b ∈ st.bookings, b.id ≠ bid) :
      Step st (createBooking st userId showId seats bid stripeRes inngestOk).1
  | expire (st : DBState) (bid : String) : Step st (releaseSeatsAndDeleteBooking st bid)
  | confirm (st : DBState) (bid : String) : Step st (markPaid st bid)

inductive Reachable : DBState → Prop
  | init (st : DBState) (h : InitState st) : Reachable st
  | step (st st' : DBState) (h : Reachable st) (hs : Step st st') : Reachable st'

/-! ### The ledger invariant

The conjuncts: document ids are unique per collection; every stored seat
value is a non-empty string (it is an authenticated user id); every
booking has an existing show in which all of its seats are occupied with
the booking user as the stored value; two bookings of one show never
share a seat; and every occupied seat is covered by some booking. -/

def Inv (st : DBState) : Prop :=
  (st.shows.map (fun s => s.id)).Nodup ∧
  (st.bookings.map (fun b => b.id)).Nodup ∧
  (∀ s ∈ st.shows, ∀ k v, lookupSeat s.occupiedSeats k = some v → v ≠ "") ∧
  (∀ b ∈ st.bookings, ∃ s ∈ st.shows, s.id = b.showId ∧
      ∀ k ∈ b.bookedSeats, lookupSeat s.occupiedSeats k = some b.user) ∧
  (∀ b1 ∈ st.bookings, ∀ b2 ∈ st.bookings, b1.showId = b2.showId →
      ∀ k, k ∈ b1.bookedSeats → k ∈ b2.bookedSeats → b1 = b2) ∧
  (∀ s ∈ st.shows, ∀ k v, lookupSeat s.occupiedSeats k = some v →
      ∃ b ∈ st.bookings, b.showId = s.id ∧ k ∈ b.bookedSeats ∧ b.user = v)

/-! ### Concrete data used by witnesses and counterexamples -/

/-- A well-formed 24-character hexadecimal ObjectId string. -/
def exShowId : String := "0123456789abcdef01234567"

/-- A second distinct ObjectId string. -/
def exShowId2 : String := "0123456789abcdef01234568"

/-- A store with one show (price 10, starting at epoch millisecond
28800000, which is 8 hours), all seats free, no bookings, one user. -/
def demoInit : DBState :=
  { shows := [{ id := exShowId, showPrice := 10, occupiedSeats := [],
                showTime := 28800000, movie := some "M" }],
    bookings := [],
    users := [{ id := "user1", name := "U1", email := "e1" }],
    scheduledExpiries := [] }

/-- One completed booking on `demoInit`: user1 booked seat A1. -/
def demoBooked : DBState :=
  (createBooking demoInit "user1" exShowId ["A1"] "b1" (Except.ok "url") true).1

/-- The booking record persisted in `demoBooked`. -/
def demoBooking : Booking :=
  { id := "b1", user := "user1", showId := exShowId, amount := 10,
    bookedSeats := ["A1"], isPaid := false, paymentLink := "url" }

/-- `demoBooked` after the payment confirmation for booking b1. -/
def demoPaid : DBState := markPaid demoBooked "b1"

/-- Write phase of the first of two racing `createBooking` calls: both
calls passed the availability check against `demoInit` before either
write phase ran. -/
def raceA : DBState × Response :=
  createBookingAfterCheck demoInit "user1" exShowId ["A1"] "b1" (Except.ok "urlA") true

/-- Write phase of the second racing call, running after the first one
completed; the controller performs no re-check inside the write phase. -/
def raceB : DBState × Response :=
  createBookingAfterCheck raceA.1 "user2" exShowId ["A1"] "b2" (Except.ok "urlB") true

/-- Result of `createBooking` when the stripe session creation throws
after the booking was persisted and the seats were written. -/
def stripeFailResult : DBState × Response :=
  createBooking demoInit "user1" exShowId ["A1"] "b1"
    (Except.error "Stripe session creation failed") true

/-- A store with two shows and two users for the reminder scan: show one
starts at epoch millisecond 28800000 (8 hours), show two 5 minutes later. -/
def reminderInit : DBState :=
  { shows := [{ id := exShowId, showPrice := 10, occupiedSeats := [],
                showTime := 28800000, movie := some "M" },
              { id := exShowId2, showPrice := 10, occupiedSeats := [],
                showTime := 29100000, movie := some "N" }],
    bookings := [],
    users := [{ id := "user1", name := "U1", email := "e1" },
              { id := "user2", name := "U2", email := "e2" }],
    scheduledExpiries := [] }

/-- `reminderInit` after user1 booked seat A1 of show one. -/
def reminderMid1 : DBState :=
  (createBooking reminderInit "user1" exShowId ["A1"] "b1" (Except.ok "u") true).1

/-- `reminderMid1` after user2 booked seat B1 of show two. -/
def reminderMid2 : DBState :=
  (createBooking reminderMid1 "user2" exShowId2 ["B1"] "b2" (Except.ok "v") true).1

/-- On `reminderInit`: user1 books seat A1 of show one and never pays;
user2 books seat B1 of show two and pays. -/
def reminderState : DBState := markPaid reminderMid2 "b2"

/-- A show whose occupiedSeats holds two seats for the same user, for the
reminder dedup property. -/
def dedupShow : ShowDoc :=
  { id := exShowId, showPrice := 10,
    occupiedSeats := [("A1", "user1"), ("A2", "user1")],
    showTime := 28800000, movie := some "M" }

/-- The first demo user document. -/
def demoUser1 : UserDoc := { id := "user1", name := "U1", email := "e1" }

/-- A store around `dedupShow` with two users with distinct emails. -/
def dedupStore : DBState :=
  { shows := [dedupShow], bookings := [],
    users := [demoUser1, { id := "user2", name := "U2", email := "e2" }],
    scheduledExpiries := [] }

/-! ### Lemmas about the seat map operations -/

theorem lookupSeat_setSeat (occ : List (String × String)) (k v key : String) :
    lookupSeat (setSeat occ k v) key = if k = key then some v else lookupSeat occ key := by
  induction occ with
  | nil =>
    by_cases h : k = key <;> simp [setSeat, lookupSeat, h]
  | cons p rest ih =>
    by_cases hpk : p.1 = k
    · have h0 : (p.1 == k) = true := by simp [hpk]
      have hset : setSeat (p :: rest) k v = (k, v) :: rest := by simp [setSeat, h0]
      rw [hset]
      by_cases hk : k = key
      · have hkt : (k == key) = true := by simp [hk]
        simp [lookupSeat, hkt, hk]
      · have hkf : (k == key) = false := by simp [hk]
        have hpf : (p.1 == key) = false := by simp [hpk, hk]
        simp [lookupSeat, hkf, hpf, hk]
    · have h0 : (p.1 == k) = false := by simp [hpk]
      have hset : setSeat (p :: rest) k v = p :: setSeat rest k v := by simp [setSeat, h0]
      rw [hset]
      by_cases hp : p.1 = key
      · have hpt : (p.1 == key) = true := by simp [hp]
        have hk : ¬ k = key := fun h => hpk (by rw [h, ← hp])
        simp [lookupSeat, hpt, hk]
      · have hpf : (p.1 == key) = false := by simp [hp]
        simp [lookupSeat, hpf, ih]

theorem lookupSeat_setSeats (seats : List String) (occ : List (String × String))
    (userId key : String) :
    lookupSeat (setSeats occ seats userId) key =
      if key ∈ seats then some userId else lookupSeat occ key := by
  induction seats generalizing occ with
  | nil => simp [setSeats]
  | cons a rest ih =>
    show lookupSeat (setSeats (setSeat occ a userId) rest userId) key = _
    rw [ih]
    by_cases hr : key ∈ rest
    · simp [hr]
    · by_cases ha : a = key
      · simp [hr, ha, lookupSeat_setSeat]
      · simp [hr, ha, lookupSeat_setSeat, Ne.symm ha]

theorem lookupSeat_deleteSeat (occ : List (String × String)) (k key : String) :
    lookupSeat (deleteSeat occ k) key = if k = key then none else lookupSeat occ key := by
  induction occ with
  | nil =>
    by_cases h : k = key <;> simp [deleteSeat, lookupSeat, h]
  | cons p rest ih =>
    by_cases hpk : p.1 = k
    · have h0 : (p.1 == k) = true := by simp [hpk]
      have hdel : deleteSeat (p :: rest) k = deleteSeat rest k := by simp [deleteSeat, h0]
      rw [hdel, ih]
      by_cases hk : k = key
      · simp [hk]
      · have hpf : (p.1 == key) = false := by simp [hpk, hk]
        simp [lookupSeat, hpf, hk]
    · have h0 : (p.1 == k) = false := by simp [hpk]
      have hdel : deleteSeat (p :: rest) k = p :: deleteSeat rest k := by simp [deleteSeat, h0]
      rw [hdel]
      by_cases hp : p.1 = key
      · have hpt : (p.1 == key) = true := by simp [hp]
        have hk : ¬ k = key := fun h => hpk (by rw [h, ← hp])
        simp [lookupSeat, hpt, hk]
      · have hpf : (p.1 == key) = false := by simp [hp]
        simp [lookupSeat, hpf, ih]

theorem lookupSeat_removeSeats (seats : List String) (occ : List (String × String))
    (key : String) :
    lookupSeat (removeSeats occ seats) key =
      if key ∈ seats then none else lookupSeat occ key := by
  induction seats generalizing occ with
  | nil => simp [removeSeats]
  | cons a rest ih =>
    show lookupSeat (removeSeats (deleteSeat occ a) rest) key = _
    rw [ih]
    by_cases hr : key ∈ rest
    · simp [hr]
    · by_cases ha : a = key
      · simp [hr, ha, lookupSeat_deleteSeat]
      · simp [hr, ha, lookupSeat_deleteSeat, Ne.symm ha]

theorem deleteSeat_of_absent (occ : List (String × String)) (k : String)
    (h : lookupSeat occ k = none) : deleteSeat occ k = occ := by
  induction occ with
  | nil => rfl
  | cons p rest ih =>
    by_cases hpk : p.1 = k
    · simp [lookupSeat, hpk] at h
    · have hpk' : (p.1 == k) = false := by simp [hpk]
      simp [lookupSeat, hpk'] at h
      simp [deleteSeat, hpk', ih h]

theorem removeSeats_of_absent (seats : List String) (occ : List (String × String))
    (h : ∀ k ∈ seats, lookupSeat occ k = none) : removeSeats occ seats = occ := by
  induction seats generalizing occ with
  | nil => rfl
  | cons a rest ih =>
    show removeSeats (deleteSeat occ a) rest = occ
    rw [deleteSeat_of_absent occ a (h a (by simp))]
    exact ih occ fun k hk => h k (by simp [hk])

theorem removeSeats_idempotent (occ : List (String × String)) (seats : List String) :
    removeSeats (removeSeats occ seats) seats = removeSeats occ seats := by
  apply removeSeats_of_absent
  intro k hk
  rw [lookupSeat_removeSeats]
  simp [hk]

/-! ### Lemmas about the database operations -/

theorem findShow_mem {st : DBState} {sid : String} {s : ShowDoc}
    (h : findShow st sid = some s) : s ∈ st.shows ∧ s.id = sid := by
  unfold findShow at h
  refine ⟨List.mem_of_find?_eq_some h, ?_⟩
  have := List.find?_some h
  simpa using this

theorem findBooking_mem {st : DBState} {bid : String} {b : Booking}
    (h : findBooking st bid = some b) : b ∈ st.bookings ∧ b.id = bid := by
  unfold findBooking at h
  refine ⟨List.mem_of_find?_eq_some h, ?_⟩
  have := List.find?_some h
  simpa using this

theorem find?_filter_deleted (l : List Booking) (bid : String) :
    (l.filter (fun b => !(b.id == bid))).find? (fun b => b.id == bid) = none := by
  apply List.find?_eq_none.mpr
  intro b hb
  have hmem := List.of_mem_filter hb
  simp at hmem
  simp [hmem]

theorem find?_map_updateOcc (l : List ShowDoc) (sid tid : String)
    (occ : List (String × String)) :
    (l.map (fun s => if s.id == sid then { s with occupiedSeats := occ } else s)).find?
        (fun s => s.id == tid) =
      (l.find? (fun s => s.id == tid)).map
        (fun s => if s.id == sid then { s with occupiedSeats := occ } else s) := by
  induction l with
  | nil => rfl
  | cons s rest ih =>
    by_cases hs : s.id = sid
    · have hmap : (s :: rest).map
          (fun x => if x.id == sid then { x with occupiedSeats := occ } else x) =
          ({ s with occupiedSeats := occ } : ShowDoc) :: rest.map
            (fun x => if x.id == sid then { x with occupiedSeats := occ } else x) := by
        simp [hs]
      rw [hmap]
      by_cases ht : s.id = tid
      · have h2 : (({ s with occupiedSeats := occ } : ShowDoc).id == tid) = true := by
          simp [ht]
        have h3 : (s.id == tid) = true := by simp [ht]
        simp only [List.find?_cons, h2, h3]
        simp [hs]
      · have h2 : (({ s with occupiedSeats := occ } : ShowDoc).id == tid) = false := by
          simp [ht]
        have h3 : (s.id == tid) = false := by simp [ht]
        simp only [List.find?_cons, h2, h3]
        exact ih
    · have hmap : (s :: rest).map
          (fun x => if x.id == sid then { x with occupiedSeats := occ } else x) =
          s :: rest.map
            (fun x => if x.id == sid then { x with occupiedSeats := occ } else x) := by
        simp [hs]
      rw [hmap]
      by_cases ht : s.id = tid
      · have h3 : (s.id == tid) = true := by simp [ht]
        simp only [List.find?_cons, h3]
        simp [hs]
      · have h3 : (s.id == tid) = false := by simp [ht]
        simp only [List.find?_cons, h3]
        exact ih

theorem findShow_updateShowOcc (st : DBState) (sid tid : String)
    (occ : List (String × String)) :
    findShow (updateShowOcc st sid occ) tid =
      (findShow st tid).map
        (fun s => if s.id == sid then { s with occupiedSeats := occ } else s) :=
  find?_map_updateOcc st.shows sid tid occ

theorem checkSeats_ne_ok_false (st : DBState) (showId : String) (seats : List String) :
    checkSeatsAvailability st showId seats ≠ Except.ok false := by
  unfold checkSeatsAvailability
  by_cases hv : isValidObjectId showId = true
  · simp only [hv, Bool.not_true, Bool.false_eq_true, if_false]
    cases hf : findShow st showId with
    | none => simp
    | some sd =>
      by_cases he : seats.isEmpty
      · simp [he]
      · by_cases ht : (seats.filter (fun seat => seatTaken sd.occupiedSeats seat)).isEmpty <;>
          simp [he, ht]
  · have : isValidObjectId showId = false := by
      cases h : isValidObjectId showId
      · rfl
      · exact absurd h hv
    simp [this]

theorem checkSeats_ok_elim {st : DBState} {showId : String} {seats : List String}
    (h : checkSeatsAvailability st showId seats = Except.ok true) :
    isValidObjectId showId = true ∧
      ∃ sd, findShow st showId = some sd ∧ seats.isEmpty = false ∧
        ∀ k ∈ seats, seatTaken sd.occupiedSeats k = false := by
  unfold checkSeatsAvailability at h
  by_cases hv : isValidObjectId showId = true
  · refine ⟨hv, ?_⟩
    simp only [hv, Bool.not_true, Bool.false_eq_true, if_false] at h
    cases hf : findShow st showId with
    | none => rw [hf] at h; exact absurd h (by simp)
    | some sd =>
      rw [hf] at h
      by_cases he : seats.isEmpty
      · simp [he] at h
      · refine ⟨sd, rfl, by simpa using he, ?_⟩
        by_cases ht : (seats.filter (fun seat => seatTaken sd.occupiedSeats seat)).isEmpty
        · intro k hk
          have : seats.filter (fun seat => seatTaken sd.occupiedSeats seat) = [] := by
            simpa using ht
          have := List.filter_eq_nil_iff.mp this k hk
          simpa using this
        · simp [he, ht] at h
  · have hvf : isValidObjectId showId = false := by
      cases hx : isValidObjectId showId
      · rfl
      · exact absurd hx hv
    rw [hvf] at h
    simp at h

theorem seatTaken_false_lookup_none {occ : List (String × String)} {k : String}
    (hwf : ∀ k2 v, lookupSeat occ k2 = some v → v ≠ "")
    (h : seatTaken occ k = false) : lookupSeat occ k = none := by
  unfold seatTaken at h
  cases hl : lookupSeat occ k with
  | none => rfl
  | some v =>
    rw [hl] at h
    have hv : v = "" := by simpa using h
    exact absurd hv (hwf k v hl)

/-! ### Preservation of the ledger invariant -/

theorem inv_init (st : DBState) (h : InitState st) : Inv st := by
  obtain ⟨hb, _hsch, hocc, hnd⟩ := h
  refine ⟨hnd, by simp [hb], ?_, by simp [hb], by simp [hb], ?_⟩
  · intro s hs k v hl
    rw [hocc s hs] at hl
    simp [lookupSeat] at hl
  · intro s hs k v hl
    rw [hocc s hs] at hl
    simp [lookupSeat] at hl

theorem inv_mapBookings (st : DBState) (f : Booking → Booking)
    (hid : ∀ b, (f b).id = b.id) (hsh : ∀ b, (f b).showId = b.showId)
    (hus : ∀ b, (f b).user = b.user) (hbs : ∀ b, (f b).bookedSeats = b.bookedSeats)
    (hInv : Inv st) : Inv { st with bookings := st.bookings.map f } := by
  obtain ⟨hndS, hndB, hval, hcov, huniq, hocc⟩ := hInv
  refine ⟨hndS, ?_, hval, ?_, ?_, ?_⟩
  · have heq : (st.bookings.map f).map (fun b => b.id) = st.bookings.map (fun b => b.id) := by
      rw [List.map_map]
      exact List.map_congr_left (fun b _ => hid b)
    show ((st.bookings.map f).map (fun b => b.id)).Nodup
    rw [heq]
    exact hndB
  · intro b hb
    obtain ⟨a, ha, rfl⟩ := List.mem_map.mp hb
    obtain ⟨s, hsMem, hsId, hcv⟩ := hcov a ha
    refine ⟨s, hsMem, by rw [hsh a]; exact hsId, ?_⟩
    intro k hk
    rw [hbs a] at hk
    rw [hus a]
    exact hcv k hk
  · intro b1 hb1 b2 hb2 hshow k hk1 hk2
    obtain ⟨a1, ha1, rfl⟩ := List.mem_map.mp hb1
    obtain ⟨a2, ha2, rfl⟩ := List.mem_map.mp hb2
    rw [hsh a1, hsh a2] at hshow
    rw [hbs a1] at hk1
    rw [hbs a2] at hk2
    rw [huniq a1 ha1 a2 ha2 hshow k hk1 hk2]
  · intro s hs k v hl
    obtain ⟨b, hb, hbsid, hbk, hbu⟩ := hocc s hs k v hl
    exact ⟨f b, List.mem_map_of_mem f hb, by rw [hsh b]; exact hbsid,
      by rw [hbs b]; exact hbk, by rw [hus b]; exact hbu⟩

theorem inv_acquire (st : DBState) (userId sid : String) (seats : List String) (bid : String)
    (sd : ShowDoc) (hInv : Inv st) (hsd : findShow st sid = some sd)
    (hfree : ∀ k ∈ seats, lookupSeat sd.occupiedSeats k = none)
    (hu : userId ≠ "") (hfresh : ∀ b ∈ st.bookings, b.id ≠ bid) :
    Inv (acquireState st userId sid seats bid sd) := by
  obtain ⟨hndS, hndB, hval, hcov, huniq, hocc⟩ := hInv
  obtain ⟨hsdMem, hsdId⟩ := findShow_mem hsd
  set occ2 : List (String × String) := setSeats sd.occupiedSeats seats userId with hocc2
  set g : ShowDoc → ShowDoc :=
    fun s => if s.id == sid then { s with occupiedSeats := occ2 } else s with hg
  set nb : Booking := newBooking userId sid seats bid sd.showPrice with hnb
  have hshows : (acquireState st userId sid seats bid sd).shows = st.shows.map g := rfl
  have hbook : (acquireState st userId sid seats bid sd).bookings = st.bookings ++ [nb] := rfl
  have hgid : ∀ s : ShowDoc, (g s).id = s.id := by
    intro s
    by_cases h : s.id = sid <;> simp [hg, h]
  have hgOccProj : ∀ s : ShowDoc, s.id = sid → (g s).occupiedSeats = occ2 := by
    intro s h
    simp [hg, h]
  have hgSame : ∀ s : ShowDoc, s.id ≠ sid → g s = s := by
    intro s h
    simp [hg, h]
  have hnbShow : nb.showId = sid := rfl
  have hnbSeats : nb.bookedSeats = seats := rfl
  have hnbUser : nb.user = userId := rfl
  have hnbId : nb.id = bid := rfl
  refine ⟨?_, ?_, ?_, ?_, ?_, ?_⟩
  · -- show ids unchanged, hence still nodup
    rw [hshows]
    have heq : (st.shows.map g).map (fun s => s.id) = st.shows.map (fun s => s.id) := by
      rw [List.map_map]
      exact List.map_congr_left (fun s _ => hgid s)
    rw [heq]
    exact hndS
  · -- booking ids: the appended id is fresh
    rw [hbook, List.map_append]
    refine List.Nodup.append hndB (by simp) ?_
    intro a ha hb2
    have hbid : a = bid := by
      simpa [hnbId] using hb2
    obtain ⟨b, hbMem, hbeq⟩ := List.mem_map.mp ha
    exact hfresh b hbMem (by rw [hbeq, hbid])
  · -- stored values stay non-empty
    intro s2 hs2 k v hl
    rw [hshows] at hs2
    obtain ⟨s, hsMem, rfl⟩ := List.mem_map.mp hs2
    by_cases hid2 : s.id = sid
    · rw [hgOccProj s hid2, hocc2, lookupSeat_setSeats] at hl
      by_cases hks : k ∈ seats
      · rw [if_pos hks] at hl
        injection hl with hv
        rw [← hv]
        exact hu
      · rw [if_neg hks] at hl
        exact hval sd hsdMem k v hl
    · rw [hgSame s hid2] at hl
      exact hval s hsMem k v hl
  · -- every booking keeps a covering show
    intro b hb
    rw [hbook] at hb
    rcases List.mem_append.mp hb with hbOld | hbNew
    · obtain ⟨s, hsMem, hsId, hcv⟩ := hcov b hbOld
      refine ⟨g s, ?_, ?_, ?_⟩
      · rw [hshows]
        exact List.mem_map_of_mem g hsMem
      · rw [hgid s]
        exact hsId
      · intro k hk
        by_cases hid2 : s.id = sid
        · have hseq : s = sd :=
            List.inj_on_of_nodup_map hndS hsMem hsdMem (by rw [hid2, hsdId])
          rw [hgOccProj s hid2, hocc2, lookupSeat_setSeats]
          by_cases hks : k ∈ seats
          · exfalso
            have h1 := hcv k hk
            rw [hseq, hfree k hks] at h1
            cases h1
          · rw [if_neg hks]
            have h1 := hcv k hk
            rw [hseq] at h1
            exact h1
        · rw [hgSame s hid2]
          exact hcv k hk
    · have hbEq : b = nb := by simpa using hbNew
      subst hbEq
      refine ⟨g sd, ?_, ?_, ?_⟩
      · rw [hshows]
        exact List.mem_map_of_mem g hsdMem
      · rw [hgid sd, hsdId, hnbShow]
      · intro k hk
        rw [hnbSeats] at hk
        rw [hgOccProj sd hsdId, hocc2, lookupSeat_setSeats, if_pos hk, hnbUser]
  · -- two bookings of one show never share a seat
    intro b1 hb1 b2 hb2 hshow k hk1 hk2
    rw [hbook] at hb1 hb2
    rcases List.mem_append.mp hb1 with h1 | h1 <;> rcases List.mem_append.mp hb2 with h2 | h2
    · exact huniq b1 h1 b2 h2 hshow k hk1 hk2
    · exfalso
      have hb2eq : b2 = nb := by simpa using h2
      subst hb2eq
      obtain ⟨s, hsMem, hsId, hcv⟩ := hcov b1 h1
      have hseq : s = sd := by
        refine List.inj_on_of_nodup_map hndS hsMem hsdMem ?_
        rw [hsId, hshow, hnbShow, hsdId]
      have hkseats : k ∈ seats := by
        rw [← hnbSeats]
        exact hk2
      have h3 := hcv k hk1
      rw [hseq, hfree k hkseats] at h3
      cases h3
    · exfalso
      have hb1eq : b1 = nb := by simpa using h1
      subst hb1eq
      obtain ⟨s, hsMem, hsId, hcv⟩ := hcov b2 h2
      have hseq : s = sd := by
        refine List.inj_on_of_nodup_map hndS hsMem hsdMem ?_
        rw [hsId, ← hshow, hnbShow, hsdId]
      have hkseats : k ∈ seats := by
        rw [← hnbSeats]
        exact hk1
      have h3 := hcv k hk2
      rw [hseq, hfree k hkseats] at h3
      cases h3
    · have e1 : b1 = nb := by simpa using h1
      have e2 : b2 = nb := by simpa using h2
      rw [e1, e2]
  · -- every occupied seat is covered by a booking
    intro s2 hs2 k v hl
    rw [hshows] at hs2
    obtain ⟨s, hsMem, rfl⟩ := List.mem_map.mp hs2
    by_cases hid2 : s.id = sid
    · rw [hgOccProj s hid2, hocc2, lookupSeat_setSeats] at hl
      by_cases hks : k ∈ seats
      · rw [if_pos hks] at hl
        injection hl with hv
        refine ⟨nb, ?_, ?_, ?_, ?_⟩
        · rw [hbook]
          exact List.mem_append.mpr (Or.inr (by simp))
        · rw [hgid s, hid2, hnbShow]
        · rw [hnbSeats]
          exact hks
        · rw [hnbUser]
          exact hv
      · rw [if_neg hks] at hl
        obtain ⟨b, hbMem, hbsid, hbk, hbu⟩ := hocc sd hsdMem k v hl
        refine ⟨b, ?_, ?_, hbk, hbu⟩
        · rw [hbook]
          exact List.mem_append.mpr (Or.inl hbMem)
        · rw [hgid s, hid2, ← hsdId]
          exact hbsid
    · rw [hgSame s hid2] at hl
      obtain ⟨b, hbMem, hbsid, hbk, hbu⟩ := hocc s hsMem k v hl
      refine ⟨b, ?_, ?_, hbk, hbu⟩
      · rw [hbook]
        exact List.mem_append.mpr (Or.inl hbMem)
      · rw [hgSame s hid2]
        exact hbsid

theorem createBooking_cases (st : DBState) (u sid : String) (seats : List String)
    (bid : String) (sres : Except String String) (iok : Bool) :
    (∃ e, checkSeatsAvailability st sid seats = Except.error e ∧
        createBooking st u sid seats bid sres iok = (st, Response.failure e)) ∨
    (checkSeatsAvailability st sid seats = Except.ok true ∧
        createBooking st u sid seats bid sres iok =
          createBookingAfterCheck st u sid seats bid sres iok) := by
  cases hc : checkSeatsAvailability st sid seats with
  | error e =>
    refine Or.inl ⟨e, rfl, ?_⟩
    unfold createBooking
    rw [hc]
  | ok b =>
    cases b with
    | false => exact absurd hc (checkSeats_ne_ok_false st sid seats)
    | true =>
      refine Or.inr ⟨rfl, ?_⟩
      unfold createBooking
      rw [hc]
      rfl

theorem inv_afterCheck (st : DBState) (u sid : String) (seats : List String) (bid : String)
    (sres : Except String String) (iok : Bool) (sd : ShowDoc)
    (hInv : Inv st) (hsd : findShow st sid = some sd)
    (hfree : ∀ k ∈ seats, lookupSeat sd.occupiedSeats k = none)
    (hu : u ≠ "") (hfresh : ∀ b ∈ st.bookings, b.id ≠ bid) :
    Inv (createBookingAfterCheck st u sid seats bid sres iok).1 := by
  have hacq := inv_acquire st u sid seats bid sd hInv hsd hfree hu hfresh
  unfold createBookingAfterCheck
  rw [hsd]
  cases sres with
  | error msg => exact hacq
  | ok url =>
    have hmap := inv_mapBookings (acquireState st u sid seats bid sd)
      (fun b => if b.id == bid then { b with paymentLink := url } else b)
      (fun b => by by_cases h : b.id = bid <;> simp [h])
      (fun b => by by_cases h : b.id = bid <;> simp [h])
      (fun b => by by_cases h : b.id = bid <;> simp [h])
      (fun b => by by_cases h : b.id = bid <;> simp [h])
      hacq
    cases iok with
    | true => exact hmap
    | false => exact hmap

theorem inv_create (st : DBState) (u sid : String) (seats : List String) (bid : String)
    (sres : Except String String) (iok : Bool)
    (hInv : Inv st) (hu : u ≠ "") (hfresh : ∀ b ∈ st.bookings, b.id ≠ bid) :
    Inv (createBooking st u sid seats bid sres iok).1 := by
  rcases createBooking_cases st u sid seats bid sres iok with ⟨e, _, heq⟩ | ⟨hok, heq⟩
  · rw [heq]
    exact hInv
  · rw [heq]
    obtain ⟨_, sd, hsd, _, hfreeT⟩ := checkSeats_ok_elim hok
    have hwf : ∀ k v, lookupSeat sd.occupiedSeats k = some v → v ≠ "" := by
      obtain ⟨hsdMem, _⟩ := findShow_mem hsd
      exact fun k v h => hInv.2.2.1 sd hsdMem k v h
    have hfree : ∀ k ∈ seats, lookupSeat sd.occupiedSeats k = none :=
      fun k hk => seatTaken_false_lookup_none hwf (hfreeT k hk)
    exact inv_afterCheck st u sid seats bid sres iok sd hInv hsd hfree hu hfresh

theorem inv_expire (st : DBState) (bid : String) (hInv : Inv st) :
    Inv (releaseSeatsAndDeleteBooking st bid) := by
  unfold releaseSeatsAndDeleteBooking
  cases hfb : findBooking st bid with
  | none => exact hInv
  | some b =>
    dsimp only
    cases hp : b.isPaid with
    | true => exact hInv
    | false =>
      cases hfs : findShow st b.showId with
      | none => exact hInv
      | some sd =>
        dsimp only
        obtain ⟨hndS, hndB, hval, hcov, huniq, hocc⟩ := hInv
        obtain ⟨hbMem, hbId⟩ := findBooking_mem hfb
        obtain ⟨hsdMem, hsdId⟩ := findShow_mem hfs
        set occ3 : List (String × String) := removeSeats sd.occupiedSeats b.bookedSeats
          with hocc3
        set g : ShowDoc → ShowDoc :=
          fun s => if s.id == b.showId then { s with occupiedSeats := occ3 } else s with hg
        have hgid : ∀ s : ShowDoc, (g s).id = s.id := by
          intro s
          by_cases h : s.id = b.showId <;> simp [hg, h]
        have hgOccProj : ∀ s : ShowDoc, s.id = b.showId → (g s).occupiedSeats = occ3 := by
          intro s h
          simp [hg, h]
        have hgSame : ∀ s : ShowDoc, s.id ≠ b.showId → g s = s := by
          intro s h
          simp [hg, h]
        have hIdInj : ∀ b3 ∈ st.bookings, b3.id = bid → b3 = b := by
          intro b3 h3 hid3
          exact List.inj_on_of_nodup_map hndB h3 hbMem (by rw [hid3, hbId])
        refine ⟨?_, ?_, ?_, ?_, ?_, ?_⟩
        · show ((st.shows.map g).map (fun s => s.id)).Nodup
          have heq : (st.shows.map g).map (fun s => s.id) = st.shows.map (fun s => s.id) := by
            rw [List.map_map]
            exact List.map_congr_left (fun s _ => hgid s)
          rw [heq]
          exact hndS
        · show ((st.bookings.filter (fun b2 => !(b2.id == bid))).map (fun b2 => b2.id)).Nodup
          exact List.Nodup.sublist ((List.filter_sublist _).map _) hndB
        · intro s2 hs2 k v hl
          have hs2' : s2 ∈ st.shows.map g := hs2
          obtain ⟨s, hsMem, rfl⟩ := List.mem_map.mp hs2'
          by_cases hid2 : s.id = b.showId
          · rw [hgOccProj s hid2, hocc3, lookupSeat_removeSeats] at hl
            by_cases hkb : k ∈ b.bookedSeats
            · rw [if_pos hkb] at hl
              cases hl
            · rw [if_neg hkb] at hl
              exact hval sd hsdMem k v hl
          · rw [hgSame s hid2] at hl
            exact hval s hsMem k v hl
        · intro b2 hb2
          have hb2' : b2 ∈ st.bookings.filter (fun b3 => !(b3.id == bid)) := hb2
          have hmem := List.mem_filter.mp hb2'
          have hne : b2.id ≠ bid := by
            have := hmem.2
            simp at this
            exact this
          obtain ⟨s, hsMem, hsId, hcv⟩ := hcov b2 hmem.1
          refine ⟨g s, ?_, ?_, ?_⟩
          · show g s ∈ st.shows.map g
            exact List.mem_map_of_mem g hsMem
          · rw [hgid s]
            exact hsId
          · intro k hk
            by_cases hid2 : s.id = b.showId
            · have hseq : s = sd :=
                List.inj_on_of_nodup_map hndS hsMem hsdMem (by rw [hid2, hsdId])
              rw [hgOccProj s hid2, hocc3, lookupSeat_removeSeats]
              by_cases hkb : k ∈ b.bookedSeats
              · exfalso
                have hbsh : b2.showId = b.showId := by rw [← hsId, hid2]
                have := huniq b2 hmem.1 b hbMem hbsh k hk hkb
                exact hne (by rw [this, hbId])
              · rw [if_neg hkb]
                have h1 := hcv k hk
                rw [hseq] at h1
                exact h1
            · rw [hgSame s hid2]
              exact hcv k hk
        · intro b1 hb1 b2 hb2 hshow k hk1 hk2
          have hb1' : b1 ∈ st.bookings.filter (fun b3 => !(b3.id == bid)) := hb1
          have hb2' : b2 ∈ st.bookings.filter (fun b3 => !(b3.id == bid)) := hb2
          exact huniq b1 (List.mem_filter.mp hb1').1 b2 (List.mem_filter.mp hb2').1
            hshow k hk1 hk2
        · intro s2 hs2 k v hl
          have hs2' : s2 ∈ st.shows.map g := hs2
          obtain ⟨s, hsMem, rfl⟩ := List.mem_map.mp hs2'
          by_cases hid2 : s.id = b.showId
          · rw [hgOccProj s hid2, hocc3, lookupSeat_removeSeats] at hl
            by_cases hkb : k ∈ b.bookedSeats
            · rw [if_pos hkb] at hl
              cases hl
            · rw [if_neg hkb] at hl
              obtain ⟨b3, hb3Mem, hb3sid, hb3k, hb3u⟩ := hocc sd hsdMem k v hl
              have hb3ne : b3.id ≠ bid := by
                intro hcontra
                have := hIdInj b3 hb3Mem hcontra
                rw [this] at hb3k
                exact hkb hb3k
              refine ⟨b3, ?_, ?_, hb3k, hb3u⟩
              · show b3 ∈ st.bookings.filter (fun b4 => !(b4.id == bid))
                exact List.mem_filter.mpr ⟨hb3Mem, by simp [hb3ne]⟩
              · rw [hgid s, hid2, ← hsdId]
                exact hb3sid
          · rw [hgSame s hid2] at hl
            obtain ⟨b3, hb3Mem, hb3sid, hb3k, hb3u⟩ := hocc s hsMem k v hl
            have hb3ne : b3.id ≠ bid := by
              intro hcontra
              have hb3b := hIdInj b3 hb3Mem hcontra
              rw [hb3b] at hb3sid
              exact hid2 (by rw [← hb3sid])
            refine ⟨b3, ?_, ?_, hb3k, hb3u⟩
            · show b3 ∈ st.bookings.filter (fun b4 => !(b4.id == bid))
              exact List.mem_filter.mpr ⟨hb3Mem, by simp [hb3ne]⟩
            · rw [hgSame s hid2]
              exact hb3sid

theorem inv_reachable (st : DBState) (h : Reachable st) : Inv st := by
  induction h with
  | init st0 h0 => exact inv_init st0 h0
  | step st0 st' _ hs ih =>
    cases hs with
    | create userId showId seats bid sres iok hu hfresh =>
      exact inv_create st0 userId showId seats bid sres iok ih hu hfresh
    | expire bid => exact inv_expire st0 bid ih
    | confirm bid =>
      exact inv_mapBookings st0 _
        (fun b => by by_cases h2 : b.id = bid <;> simp [h2])
        (fun b => by by_cases h2 : b.id = bid <;> simp [h2])
        (fun b => by by_cases h2 : b.id = bid <;> simp [h2])
        (fun b => by by_cases h2 : b.id = bid <;> simp [h2]) ih

/-! ### Lemmas about the reminder scan -/

theorem mem_dedupAux (l : List String) : ∀ (seen : List String) (a : String),
    a ∈ dedupAux seen l ↔ a ∈ l ∧ a ∉ seen := by
  induction l with
  | nil => intro seen a; simp [dedupAux]
  | cons x rest ih =>
    intro seen a
    show a ∈ (if x ∈ seen then dedupAux seen rest else x :: dedupAux (x :: seen) rest) ↔ _
    by_cases hx : x ∈ seen
    · rw [if_pos hx, ih seen]
      constructor
      · rintro ⟨h1, h2⟩
        exact ⟨List.mem_cons.mpr (Or.inr h1), h2⟩
      · rintro ⟨h1, h2⟩
        rcases List.mem_cons.mp h1 with rfl | h1'
        · exact absurd hx h2
        · exact ⟨h1', h2⟩
    · rw [if_neg hx]
      constructor
      · intro h
        rcases List.mem_cons.mp h with rfl | h'
        · exact ⟨List.mem_cons.mpr (Or.inl rfl), hx⟩
        · have h2 := (ih (x :: seen) a).mp h'
          exact ⟨List.mem_cons.mpr (Or.inr h2.1),
            fun hs => h2.2 (List.mem_cons.mpr (Or.inr hs))⟩
      · rintro ⟨h1, h2⟩
        rcases List.mem_cons.mp h1 with rfl | h1'
        · exact List.mem_cons.mpr (Or.inl rfl)
        · by_cases hax : a = x
          · exact List.mem_cons.mpr (Or.inl hax)
          · refine List.mem_cons.mpr (Or.inr ((ih (x :: seen) a).mpr ⟨h1', ?_⟩))
            intro hmem
            rcases List.mem_cons.mp hmem with h3 | h3
            · exact hax h3
            · exact h2 h3

theorem mem_dedupKeepFirst (l : List String) (a : String) :
    a ∈ dedupKeepFirst l ↔ a ∈ l := by
  unfold dedupKeepFirst
  rw [mem_dedupAux]
  simp

theorem countP_filter_unique_email (users : List UserDoc) (u : UserDoc) (q : UserDoc → Bool)
    (hnd : (users.map (fun v => v.email)).Nodup) (hu : u ∈ users) :
    (users.filter q).countP (fun v => v.email == u.email) = if q u then 1 else 0 := by
  induction users with
  | nil => cases hu
  | cons v rest ih =>
    have hnd2 : v.email ∉ rest.map (fun x => x.email) ∧
        (rest.map (fun x => x.email)).Nodup := List.nodup_cons.mp hnd
    rcases List.mem_cons.mp hu with heq | hur
    · subst heq
      have hzero : (rest.filter q).countP (fun x => x.email == u.email) = 0 := by
        apply List.countP_eq_zero.mpr
        intro a ha hbe
        have haMem : a ∈ rest := List.mem_of_mem_filter ha
        have haeq : a.email = u.email := by simpa using hbe
        exact hnd2.1 (by rw [← haeq]; exact List.mem_map_of_mem _ haMem)
      by_cases hq : q u = true
      · rw [List.filter_cons_of_pos hq, if_pos hq, List.countP_cons, hzero]
        simp
      · rw [List.filter_cons_of_neg (by simpa using hq), if_neg hq, hzero]
    · have hvne : ¬ ((fun x : UserDoc => x.email == u.email) v = true) := by
        simp only [beq_iff_eq]
        intro heq2
        exact hnd2.1 (by rw [heq2]; exact List.mem_map_of_mem _ hur)
      by_cases hq : q v = true
      · rw [List.filter_cons_of_pos hq, List.countP_cons, ih hnd2.2 hur]
        have hf : (v.email == u.email) = false := by simpa using hvne
        simp [hf]
      · rw [List.filter_cons_of_neg (by simpa using hq)]
        exact ih hnd2.2 hur

theorem tasksForShow_count (st : DBState) (s : ShowDoc) (u : UserDoc) (title : String)
    (hmovie : s.movie = some title)
    (hnd : (st.users.map (fun v => v.email)).Nodup)
    (hu : u ∈ st.users) :
    (tasksForShow st s).countP (fun t => t.userEmail == u.email) =
      if u.id ∈ s.occupiedSeats.map (fun p => p.2) then 1 else 0 := by
  unfold tasksForShow
  rw [hmovie]
  dsimp only
  by_cases hempty : (dedupKeepFirst (s.occupiedSeats.map (fun p => p.2))).isEmpty
  · rw [if_pos hempty]
    have hnil : dedupKeepFirst (s.occupiedSeats.map (fun p => p.2)) = [] := by
      simpa using hempty
    have hvals : ∀ a, a ∉ s.occupiedSeats.map (fun p => p.2) := by
      intro a ha
      have : a ∈ dedupKeepFirst (s.occupiedSeats.map (fun p => p.2)) :=
        (mem_dedupKeepFirst _ _).mpr ha
      rw [hnil] at this
      cases this
    rw [if_neg (hvals u.id)]
    rfl
  · rw [if_neg hempty, List.countP_map]
    have hcomp : ((fun t : ReminderTask => t.userEmail == u.email) ∘ (fun v : UserDoc => ({ userEmail := v.email, userName := v.name, movieTitle := title, showTime := s.showTime } : ReminderTask))) = (fun v : UserDoc => v.email == u.email) := rfl
    rw [hcomp, countP_filter_unique_email st.users u _ hnd hu]
    by_cases hmem : u.id ∈ s.occupiedSeats.map (fun p => p.2)
    · have h1 : ((dedupKeepFirst (s.occupiedSeats.map (fun p => p.2))).contains u.id) = true := by
        simp only [List.contains, List.elem_eq_mem, decide_eq_true_eq]
        exact (mem_dedupKeepFirst _ _).mpr hmem
      rw [if_pos h1, if_pos hmem]
    · have h1 : u.id ∉ dedupKeepFirst (s.occupiedSeats.map (fun p => p.2)) := by
        intro hc
        exact hmem ((mem_dedupKeepFirst _ _).mp hc)
      have h2 : ¬ (((dedupKeepFirst (s.occupiedSeats.map (fun p => p.2))).contains u.id) = true) := by
        simp only [List.contains, List.elem_eq_mem, decide_eq_true_eq]
        exact h1
      rw [if_neg h2, if_neg hmem]

theorem prepareReminderTasks_window (st : DBState) (now : Nat) :
    ∀ t ∈ prepareReminderTasks st now, ∃ s ∈ st.shows,
      (reminderWindowStart now ≤ s.showTime ∧ s.showTime ≤ reminderWindowEnd now) ∧
      t ∈ tasksForShow st s := by
  intro t ht
  unfold prepareReminderTasks at ht
  obtain ⟨s, hs, hts⟩ := List.mem_flatMap.mp ht
  have hmem := List.mem_filter.mp hs
  refine ⟨s, hmem.1, ?_, hts⟩
  have := hmem.2
  unfold showInReminderWindow at this
  simpa using this

/-! ### Case characterizations of the expiry task -/

theorem release_none (st : DBState) (bid : String) (h : findBooking st bid = none) :
    releaseSeatsAndDeleteBooking st bid = st := by
  unfold releaseSeatsAndDeleteBooking
  rw [h]

theorem release_paid (st : DBState) (bid : String) (b : Booking)
    (hfind : findBooking st bid = some b) (hpaid : b.isPaid = true) :
    releaseSeatsAndDeleteBooking st bid = st := by
  unfold releaseSeatsAndDeleteBooking
  rw [hfind]
  dsimp only
  rw [hpaid, if_pos rfl]

theorem release_noShow (st : DBState) (bid : String) (b : Booking)
    (hfind : findBooking st bid = some b) (hunpaid : b.isPaid = false)
    (hfs : findShow st b.showId = none) :
    releaseSeatsAndDeleteBooking st bid = st := by
  unfold releaseSeatsAndDeleteBooking
  rw [hfind]
  dsimp only
  rw [hunpaid, if_neg Bool.false_ne_true, hfs]

theorem release_eq (st : DBState) (bid : String) (b : Booking) (sd : ShowDoc)
    (hfind : findBooking st bid = some b) (hunpaid : b.isPaid = false)
    (hshow : findShow st b.showId = some sd) :
    releaseSeatsAndDeleteBooking st bid =
      { st with
        shows := st.shows.map (fun s => if s.id == b.showId then { s with occupiedSeats := removeSeats sd.occupiedSeats b.bookedSeats } else s),
        bookings := st.bookings.filter (fun b2 => !(b2.id == bid)) } := by
  unfold releaseSeatsAndDeleteBooking
  rw [hfind]
  dsimp only
  rw [hunpaid, if_neg Bool.false_ne_true, hshow]
  rfl

theorem release_deletes (st : DBState) (bid : String) (b : Booking) (sd : ShowDoc)
    (hfind : findBooking st bid = some b) (hunpaid : b.isPaid = false)
    (hshow : findShow st b.showId = some sd) :
    findBooking (releaseSeatsAndDeleteBooking st bid) bid = none := by
  rw [release_eq st bid b sd hfind hunpaid hshow]
  exact find?_filter_deleted st.bookings bid

theorem release_idem (st : DBState) (bid : String) :
    releaseSeatsAndDeleteBooking (releaseSeatsAndDeleteBooking st bid) bid =
      releaseSeatsAndDeleteBooking st bid := by
  cases hfb : findBooking st bid with
  | none => rw [release_none st bid hfb, release_none st bid hfb]
  | some b =>
    cases hp : b.isPaid with
    | true => rw [release_paid st bid b hfb hp, release_paid st bid b hfb hp]
    | false =>
      cases hfs : findShow st b.showId with
      | none => rw [release_noShow st bid b hfb hp hfs, release_noShow st bid b hfb hp hfs]
      | some sd => exact release_none _ bid (release_deletes st bid b sd hfb hp hfs)

theorem release_show_result (st : DBState) (bid : String) (b : Booking) (sd : ShowDoc)
    (hfind : findBooking st bid = some b) (hunpaid : b.isPaid = false)
    (hshow : findShow st b.showId = some sd) :
    findShow (releaseSeatsAndDeleteBooking st bid) b.showId =
      some { sd with occupiedSeats := removeSeats sd.occupiedSeats b.bookedSeats } := by
  rw [release_eq st bid b sd hfind hunpaid hshow]
  have hstep : findShow { st with
      shows := st.shows.map (fun s => if s.id == b.showId then { s with occupiedSeats := removeSeats sd.occupiedSeats b.bookedSeats } else s),
      bookings := st.bookings.filter (fun b2 => !(b2.id == bid)) } b.showId =
      findShow (updateShowOcc st b.showId (removeSeats sd.occupiedSeats b.bookedSeats)) b.showId := rfl
  rw [hstep, findShow_updateShowOcc, hshow]
  have hid : (sd.id == b.showId) = true := by
    simp [(findShow_mem hshow).2]
  have hmap : Option.map
      (fun s => if s.id == b.showId then { s with occupiedSeats := removeSeats sd.occupiedSeats b.bookedSeats } else s)
      (some sd) =
      some (if sd.id == b.showId then { sd with occupiedSeats := removeSeats sd.occupiedSeats b.bookedSeats } else sd) := rfl
  rw [hmap, if_pos hid]

/-! ### Lemma behind the no-op release claim -/

theorem lookupSeat_mem (occ : List (String × String)) (k v : String)
    (h : lookupSeat occ k = some v) : (k, v) ∈ occ := by
  induction occ with
  | nil => cases h
  | cons p rest ih =>
    by_cases hp : p.1 = k
    · have hp2 : (p.1 == k) = true := by simp [hp]
      unfold lookupSeat at h
      rw [hp2] at h
      dsimp at h
      injection h with hv
      rw [← hp, ← hv]
      exact List.mem_cons_self _ _
    · have hp2 : (p.1 == k) = false := by simp [hp]
      unfold lookupSeat at h
      rw [hp2] at h
      dsimp at h
      exact List.mem_cons.mpr (Or.inr (ih h))

/-! ### Claim theorems -/

/-- C4: whenever the deferred expiry task fires for a reservation whose
confirmation flag `isPaid` reads true at the fire-time re-check, it does
nothing: the resulting store is the input store, so no seat of that
reservation is removed from any `occupiedSeats` mapping and the booking
record is not deleted. -/
theorem c4_expiry_noop_when_paid (st : DBState) (bookingId : String) (b : Booking)
    (hfind : findBooking st bookingId = some b) (hpaid : b.isPaid = true) :
    releaseSeatsAndDeleteBooking st bookingId = st :=
  release_paid st bookingId b hfind hpaid

/-- Witness for C4: in the concrete store where user1 booked seat A1 and
then paid, the expiry task leaves the store unchanged. -/
theorem c4_expiry_noop_when_paid_witness :
    findBooking demoPaid "b1" = some { demoBooking with isPaid := true } ∧
      ({ demoBooking with isPaid := true } : Booking).isPaid = true ∧
      releaseSeatsAndDeleteBooking demoPaid "b1" = demoPaid :=
  ⟨by decide, by decide,
    c4_expiry_noop_when_paid demoPaid "b1" { demoBooking with isPaid := true }
      (by decide) (by decide)⟩

/-- C5: when the expiry task fires for a reservation that still exists,
is unconfirmed, and whose show exists, it removes every seat of the
reservation from the occupiedSeats mapping of that show (leaving other
keys alone) and deletes the booking record; a second firing is a no-op,
and a firing for a missing reservation does nothing. -/
theorem c5_expiry_releases_unpaid_exactly_once (st : DBState) (bookingId : String) :
    (findBooking st bookingId = none → releaseSeatsAndDeleteBooking st bookingId = st) ∧
    (∀ b sd, findBooking st bookingId = some b → b.isPaid = false →
      findShow st b.showId = some sd →
      findShow (releaseSeatsAndDeleteBooking st bookingId) b.showId =
          some { sd with occupiedSeats := removeSeats sd.occupiedSeats b.bookedSeats } ∧
        (∀ k ∈ b.bookedSeats,
          lookupSeat (removeSeats sd.occupiedSeats b.bookedSeats) k = none) ∧
        (∀ k, k ∉ b.bookedSeats →
          lookupSeat (removeSeats sd.occupiedSeats b.bookedSeats) k =
            lookupSeat sd.occupiedSeats k) ∧
        findBooking (releaseSeatsAndDeleteBooking st bookingId) bookingId = none) ∧
    releaseSeatsAndDeleteBooking (releaseSeatsAndDeleteBooking st bookingId) bookingId =
      releaseSeatsAndDeleteBooking st bookingId := by
  refine ⟨release_none st bookingId, ?_, release_idem st bookingId⟩
  intro b sd hfind hunpaid hshow
  refine ⟨release_show_result st bookingId b sd hfind hunpaid hshow, ?_, ?_,
    release_deletes st bookingId b sd hfind hunpaid hshow⟩
  · intro k hk
    rw [lookupSeat_removeSeats]
    simp [hk]
  · intro k hk
    rw [lookupSeat_removeSeats]
    simp [hk]

/-- Witness for C5: firing the expiry task on the unpaid concrete booking
frees seat A1 and removes the booking record. -/
theorem c5_expiry_releases_unpaid_exactly_once_witness :
    findBooking demoBooked "b1" = some demoBooking ∧ demoBooking.isPaid = false ∧
      findShow demoBooked demoBooking.showId = some { id := exShowId, showPrice := 10, occupiedSeats := [("A1", "user1")], showTime := 28800000, movie := some "M" } ∧
      findBooking (releaseSeatsAndDeleteBooking demoBooked "b1") "b1" = none :=
  ⟨by decide, by decide, by decide,
    ((c5_expiry_releases_unpaid_exactly_once demoBooked "b1").2.1 demoBooking
      { id := exShowId, showPrice := 10, occupiedSeats := [("A1", "user1")], showTime := 28800000, movie := some "M" }
      (by decide) (by decide) (by decide)).2.2.2⟩

/-- C9: releasing a seat that is not present in the occupiedSeats mapping
is a total no-op (the delete of an absent key leaves the mapping
unchanged and raises no error, being a total function), releasing a set
of absent seats is a no-op, and releasing a set of seats twice equals
releasing it once. -/
theorem c9_release_idempotent_noop (occ : List (String × String)) (seats : List String)
    (k : String) :
    (lookupSeat occ k = none → deleteSeat occ k = occ) ∧
    ((∀ s ∈ seats, lookupSeat occ s = none) → removeSeats occ seats = occ) ∧
    removeSeats (removeSeats occ seats) seats = removeSeats occ seats :=
  ⟨deleteSeat_of_absent occ k, removeSeats_of_absent seats occ,
    removeSeats_idempotent occ seats⟩

/-- Witness for C9: deleting the absent seat B1 from a mapping holding
only A1 leaves it unchanged, as does releasing the absent set B1, C2. -/
theorem c9_release_idempotent_noop_witness :
    lookupSeat [("A1", "user1")] "B1" = none ∧
      deleteSeat [("A1", "user1")] "B1" = [("A1", "user1")] ∧
      removeSeats [("A1", "user1")] ["B1", "C2"] = [("A1", "user1")] :=
  ⟨by decide, (c9_release_idempotent_noop [("A1", "user1")] ["B1", "C2"] "B1").1 (by decide),
    (c9_release_idempotent_noop [("A1", "user1")] ["B1", "C2"] "B1").2.1 (by decide)⟩

/-- C10: `checkSeatsAvailability` either throws or returns `true`, never
`false`; consequently the branch of `createBooking` that answers
"Selected Seats are not available." on a `false` result is dead code:
replacing it by the normal continuation does not change `createBooking`
on any input. -/
theorem c10_check_never_returns_false (st : DBState) (showId : String)
    (seats : List String) (userId bid : String) (stripeRes : Except String String)
    (inngestOk : Bool) :
    ((∃ msg, checkSeatsAvailability st showId seats = Except.error msg) ∨
      checkSeatsAvailability st showId seats = Except.ok true) ∧
    createBooking st userId showId seats bid stripeRes inngestOk =
      (match checkSeatsAvailability st showId seats with
       | Except.error e => (st, Response.failure e)
       | Except.ok _ => createBookingAfterCheck st userId showId seats bid stripeRes inngestOk) := by
  rcases createBooking_cases st userId showId seats bid stripeRes inngestOk with
    ⟨e, hc, heq⟩ | ⟨hc, heq⟩
  · refine ⟨Or.inl ⟨e, hc⟩, ?_⟩
    rw [heq, hc]
  · refine ⟨Or.inr hc, ?_⟩
    rw [heq, hc]

/-- C6: when some selected seat is already a key of the occupiedSeats
mapping of the show (stored values, being authenticated user ids, are
non-empty strings), `checkSeatsAvailability` throws a message naming
exactly the seats whose keys are present, and the whole `createBooking`
call returns that failure with the store unchanged: no partial acquire. -/
theorem c6_conflict_names_taken_seats_no_mutation (st : DBState) (showId : String)
    (seats : List String) (s : ShowDoc) (userId bid : String)
    (stripeRes : Except String String) (inngestOk : Bool)
    (hv : isValidObjectId showId = true)
    (hs : findShow st showId = some s)
    (hne : seats.isEmpty = false)
    (hwf : ∀ p ∈ s.occupiedSeats, p.2 ≠ "")
    (htaken : (seats.filter (fun k => (lookupSeat s.occupiedSeats k).isSome)).isEmpty = false) :
    checkSeatsAvailability st showId seats =
        Except.error ("Seats " ++ String.intercalate ", " (seats.filter (fun k => (lookupSeat s.occupiedSeats k).isSome)) ++ " are already taken") ∧
      createBooking st userId showId seats bid stripeRes inngestOk =
        (st, Response.failure ("Seats " ++ String.intercalate ", " (seats.filter (fun k => (lookupSeat s.occupiedSeats k).isSome)) ++ " are already taken")) := by
  have hfeq : seats.filter (fun k => seatTaken s.occupiedSeats k) =
      seats.filter (fun k => (lookupSeat s.occupiedSeats k).isSome) := by
    apply List.filter_congr
    intro k _
    unfold seatTaken
    cases hl : lookupSeat s.occupiedSeats k with
    | none => simp
    | some v =>
      have hv2 : v ≠ "" := hwf (k, v) (lookupSeat_mem _ _ _ hl)
      simp [hv2]
  have hcheck : checkSeatsAvailability st showId seats =
      Except.error ("Seats " ++ String.intercalate ", " (seats.filter (fun k => (lookupSeat s.occupiedSeats k).isSome)) ++ " are already taken") := by
    unfold checkSeatsAvailability
    simp only [hv, Bool.not_true, Bool.false_eq_true, if_false]
    rw [hs]
    dsimp only
    rw [if_neg (by simp [hne]), hfeq, if_neg (by simp [htaken])]
  refine ⟨hcheck, ?_⟩
  unfold createBooking
  rw [hcheck]

/-- Witness for C6: requesting seats A1 and B2 when A1 is already taken
fails with a message naming exactly A1 and leaves the store as it was. -/
theorem c6_conflict_names_taken_seats_no_mutation_witness :
    checkSeatsAvailability demoBooked exShowId ["A1", "B2"] =
        Except.error "Seats A1 are already taken" ∧
      createBooking demoBooked "user2" exShowId ["A1", "B2"] "b9" (Except.ok "u9") true =
        (demoBooked, Response.failure "Seats A1 are already taken") := by
  have h := c6_conflict_names_taken_seats_no_mutation demoBooked exShowId ["A1", "B2"]
    { id := exShowId, showPrice := 10, occupiedSeats := [("A1", "user1")], showTime := 28800000, movie := some "M" }
    "user2" "b9" (Except.ok "u9") true (by decide) (by decide) (by decide)
    (by decide) (by decide)
  exact h

/-- C7: once the availability check passed and the stripe session was
created, the response of `createBooking` is success with the session URL
whether or not the `inngest.send` notification completed within its
deadline; the bookings and shows of the resulting store are the same in
both cases, and the configured deadline constant is 2000 milliseconds.
The failed or timed-out send only skips the recorded expiry schedule. -/
theorem c7_inngest_failure_swallowed (st : DBState) (userId showId : String)
    (seats : List String) (bid url : String)
    (hok : checkSeatsAvailability st showId seats = Except.ok true) :
    (createBooking st userId showId seats bid (Except.ok url) true).2 = Response.success url ∧
    (createBooking st userId showId seats bid (Except.ok url) false).2 = Response.success url ∧
    (createBooking st userId showId seats bid (Except.ok url) false).1.bookings =
      (createBooking st userId showId seats bid (Except.ok url) true).1.bookings ∧
    (createBooking st userId showId seats bid (Except.ok url) false).1.shows =
      (createBooking st userId showId seats bid (Except.ok url) true).1.shows ∧
    inngestTimeoutMs = 2000 := by
  obtain ⟨_, sd, hsd, _, _⟩ := checkSeats_ok_elim hok
  have h1 : ∀ iok, createBooking st userId showId seats bid (Except.ok url) iok =
      createBookingAfterCheck st userId showId seats bid (Except.ok url) iok := by
    intro iok
    rcases createBooking_cases st userId showId seats bid (Except.ok url) iok with
      ⟨e, hc, _⟩ | ⟨_, heq⟩
    · rw [hok] at hc
      cases hc
    · exact heq
  rw [h1 true, h1 false]
  unfold createBookingAfterCheck
  rw [hsd]
  exact ⟨rfl, rfl, rfl, rfl, rfl⟩

/-- Witness for C7: on the concrete free store, the call returns success
with the URL for both notification outcomes. -/
theorem c7_inngest_failure_swallowed_witness :
    checkSeatsAvailability demoInit exShowId ["A1"] = Except.ok true ∧
      (createBooking demoInit "user1" exShowId ["A1"] "b1" (Except.ok "url") true).2 =
        Response.success "url" ∧
      (createBooking demoInit "user1" exShowId ["A1"] "b1" (Except.ok "url") false).2 =
        Response.success "url" :=
  ⟨rfl,
    (c7_inngest_failure_swallowed demoInit "user1" exShowId ["A1"] "b1" "url" rfl).1,
    (c7_inngest_failure_swallowed demoInit "user1" exShowId ["A1"] "b1" "url" rfl).2.1⟩

/-! ### Reachability of the concrete stores -/

theorem reachable_demoInit : Reachable demoInit :=
  Reachable.init demoInit ⟨rfl, rfl, by decide, by decide⟩

theorem reachable_demoBooked : Reachable demoBooked :=
  Reachable.step demoInit demoBooked reachable_demoInit
    (Step.create demoInit "user1" exShowId ["A1"] "b1" (Except.ok "url") true
      (by decide) (by decide))

theorem reachable_demoPaid : Reachable demoPaid :=
  Reachable.step demoBooked demoPaid reachable_demoBooked (Step.confirm demoBooked "b1")

theorem reachable_reminderInit : Reachable reminderInit :=
  Reachable.init reminderInit ⟨rfl, rfl, by decide, by decide⟩

theorem reachable_reminderState : Reachable reminderState :=
  Reachable.step reminderMid2 reminderState
    (Reachable.step reminderMid1 reminderMid2
      (Reachable.step reminderInit reminderMid1 reachable_reminderInit
        (Step.create reminderInit "user1" exShowId ["A1"] "b1" (Except.ok "u") true
          (by decide) (by decide)))
      (Step.create reminderMid1 "user2" exShowId2 ["B1"] "b2" (Except.ok "v") true
        (by decide) (by decide)))
    (Step.confirm reminderMid2 "b2")

/-- C1: the check-then-act race at a concrete input.  Both racing
`createBooking` calls pass the availability check against the same
pre-write store (the controller checks on line 45 and never re-checks
inside the write phase of lines 54 to 116), then the two write phases
run one after the other; both calls succeed, and afterwards two distinct
persisted bookings of the same show both contain the contested seat A1 -
the at-most-one-success guarantee does not hold on the code. -/
theorem c1_concurrent_overlapping_both_succeed :
    checkSeatsAvailability demoInit exShowId ["A1"] = Except.ok true ∧
    raceA.2 = Response.success "urlA" ∧
    raceB.2 = Response.success "urlB" ∧
    (∃ b1 ∈ raceB.1.bookings, b1.id = "b1" ∧ "A1" ∈ b1.bookedSeats) ∧
    (∃ b2 ∈ raceB.1.bookings, b2.id = "b2" ∧ "A1" ∈ b2.bookedSeats) ∧
    (∃ b1 ∈ raceB.1.bookings, ∃ b2 ∈ raceB.1.bookings, b1 ≠ b2 ∧
      b1.showId = b2.showId ∧ "A1" ∈ b1.bookedSeats ∧ "A1" ∈ b2.bookedSeats) :=
  ⟨rfl, rfl, rfl, by decide, by decide, by decide⟩

/-- C2 counterexample, refuting both halves of the original claim on the
code.  First half: in the store `demoBooked` (reachable even without
interleaving), seat A1 maps to "user1", the booking user id, which is
not the id of any existing reservation (the only reservation id is
"b1") - so a seat key does not map to a Reservation holder-id that is a
reservation id.  Second half: the controller admits interleaved
executions beyond the serialized ones, because the availability check
(line 45) and the write phase (lines 54 to 116, which never re-check)
are separate unlocked round trips; with both checks reading the
pre-write store, both write phases run, and the resulting store
`raceB.1` holds two distinct bookings of one show that both contain
seat A1 - a seat simultaneously reserved by two Reservations, against
the claimed invariant. -/
theorem c2_original_invariant_fails_on_code :
    (Reachable demoBooked ∧
      (∃ s ∈ demoBooked.shows, s.id = exShowId ∧
        lookupSeat s.occupiedSeats "A1" = some "user1") ∧
      (∀ b ∈ demoBooked.bookings, b.id ≠ "user1") ∧
      (∃ b ∈ demoBooked.bookings, b.id = "b1" ∧ b.user = "user1" ∧
        "A1" ∈ b.bookedSeats)) ∧
    (checkSeatsAvailability demoInit exShowId ["A1"] = Except.ok true ∧
      (∃ b1 ∈ raceB.1.bookings, ∃ b2 ∈ raceB.1.bookings, b1 ≠ b2 ∧
        b1.showId = b2.showId ∧ "A1" ∈ b1.bookedSeats ∧ "A1" ∈ b2.bookedSeats)) :=
  ⟨⟨reachable_demoBooked, by decide, by decide, by decide⟩, rfl, by decide⟩

/-- C2 (amended): in every store reachable by SERIALIZED execution (one
operation at a time, the scope stated in the `Reachable` definition;
the interleaved executions the controller also admits violate this, as
the counterexample shows), each occupied seat key of each show is held
by exactly one booking: the stored value is that booking user id, the
booking refers to the show and its bookedSeats contain the seat, and
any booking of the same show containing the seat is that booking - no
seat is simultaneously reserved by two bookings. -/
theorem c2_each_occupied_seat_has_unique_booking (st : DBState) (h : Reachable st) :
    ∀ s ∈ st.shows, ∀ seat v, lookupSeat s.occupiedSeats seat = some v →
      ∃ b, b ∈ st.bookings ∧ b.showId = s.id ∧ seat ∈ b.bookedSeats ∧ b.user = v ∧
        ∀ b2 ∈ st.bookings, b2.showId = s.id → seat ∈ b2.bookedSeats → b2 = b := by
  obtain ⟨_, _, _, _, huniq, hocc⟩ := inv_reachable st h
  intro s hs seat v hl
  obtain ⟨b, hb, hbsid, hbk, hbu⟩ := hocc s hs seat v hl
  refine ⟨b, hb, hbsid, hbk, hbu, ?_⟩
  intro b2 hb2 hb2sid hb2k
  exact huniq b2 hb2 b hb (by rw [hb2sid, hbsid]) seat hb2k hbk

/-- Witness for C2: the invariant instantiated at the reachable concrete
store holding one booked seat. -/
theorem c2_each_occupied_seat_has_unique_booking_witness :
    Reachable demoBooked ∧
      (∀ s ∈ demoBooked.shows, ∀ seat v, lookupSeat s.occupiedSeats seat = some v →
        ∃ b, b ∈ demoBooked.bookings ∧ b.showId = s.id ∧ seat ∈ b.bookedSeats ∧
          b.user = v ∧
          ∀ b2 ∈ demoBooked.bookings, b2.showId = s.id → seat ∈ b2.bookedSeats → b2 = b) :=
  ⟨reachable_demoBooked,
    c2_each_occupied_seat_has_unique_booking demoBooked reachable_demoBooked⟩

/-- C3: evaluation at the failing input.  When the stripe session
creation throws after the booking was persisted and the seats written,
`createBooking` catches the error and answers failure, but performs no
rollback: the booking record remains, seat A1 remains occupied in the
show, and no expiry check was scheduled that could ever release it. -/
theorem c3_stripe_failure_no_rollback :
    stripeFailResult.2 = Response.failure "Stripe session creation failed" ∧
    (∃ b ∈ stripeFailResult.1.bookings, b.id = "b1" ∧ b.bookedSeats = ["A1"] ∧
      b.isPaid = false) ∧
    (∃ s ∈ stripeFailResult.1.shows, s.id = exShowId ∧
      lookupSeat s.occupiedSeats "A1" = some "user1") ∧
    stripeFailResult.1.scheduledExpiries = [] :=
  ⟨rfl, by decide, by decide, rfl⟩

/-- C8 counterexample: in the reachable store `reminderState` at time 0,
show one starts exactly 8 hours ahead - the boundary instant belongs both
to the stated window beginning 8 hours from now and to the code window -
and its only holder user1 is unconfirmed (unpaid), while show two starts
8 hours 5 minutes ahead (inside the stated window, outside the code
window, which ends 8 hours from now) and its holder user2 is confirmed.
The scan emits exactly one intent, to user1, and none to user2. -/
theorem c8_reminder_to_unconfirmed_holder :
    Reachable reminderState ∧
    (∃ b ∈ reminderState.bookings, b.id = "b1" ∧ b.user = "user1" ∧ b.isPaid = false) ∧
    (∃ b ∈ reminderState.bookings, b.id = "b2" ∧ b.user = "user2" ∧ b.isPaid = true) ∧
    (∃ s ∈ reminderState.shows, s.id = exShowId ∧ s.showTime = 28800000) ∧
    (∃ s ∈ reminderState.shows, s.id = exShowId2 ∧ s.showTime = 29100000) ∧
    reminderWindowEnd 0 = 28800000 ∧
    prepareReminderTasks reminderState 0 =
      [{ userEmail := "e1", userName := "U1", movieTitle := "M", showTime := 28800000 }] :=
  ⟨reachable_reminderState, by decide, by decide, by decide, by decide, rfl, by decide⟩

/-- C8 (amended): every emitted task comes from a show whose start time
lies in the 10-minute query window ending 8 hours from now, and for any
show with a populated movie, any user present in the user store (with
stored emails distinct) receives exactly one task when the user id
appears among the occupiedSeats values of the show - however many seats
the user holds and regardless of any confirmation flag - and none when it
does not appear. -/
theorem c8_reminder_window_and_dedup (st : DBState) (now : Nat) (s : ShowDoc)
    (u : UserDoc) (title : String)
    (hmovie : s.movie = some title)
    (hnd : (st.users.map (fun v => v.email)).Nodup)
    (hu : u ∈ st.users) :
    (∀ t ∈ prepareReminderTasks st now, ∃ s2 ∈ st.shows,
      (reminderWindowStart now ≤ s2.showTime ∧ s2.showTime ≤ reminderWindowEnd now) ∧
      t ∈ tasksForShow st s2) ∧
    (tasksForShow st s).countP (fun t => t.userEmail == u.email) =
      (if u.id ∈ s.occupiedSeats.map (fun p => p.2) then 1 else 0) :=
  ⟨prepareReminderTasks_window st now, tasksForShow_count st s u title hmovie hnd hu⟩

/-- Witness for C8: user1 holds two seats of the concrete show, yet the
scan produces exactly one task carrying the user1 email. -/
theorem c8_reminder_window_and_dedup_witness :
    dedupShow.movie = some "M" ∧
    (dedupStore.users.map (fun v => v.email)).Nodup ∧
    demoUser1 ∈ dedupStore.users ∧
    (tasksForShow dedupStore dedupShow).countP (fun t => t.userEmail == demoUser1.email) =
      (if demoUser1.id ∈ dedupShow.occupiedSeats.map (fun p => p.2) then 1 else 0) :=
  ⟨rfl, by decide, by decide,
    (c8_reminder_window_and_dedup dedupStore 0 dedupShow demoUser1 "M" rfl
      (by decide) (by decide)).2⟩

end Vubox
